import Mathlib

/-!
Shallow embedding of `generate_graphs.py`, a benchmark-plotting script.

The script loads CSV measurement tables (pandas DataFrames) and renders
error-bar charts with matplotlib.  We embed:

* a Measurement Table as a `List Row`, a row carrying the columns
  `io_size`, `stride_size`, `mean`, `ci95` (CSV numeric values are
  modelled as `Int` for the byte-size columns and `Rat` for the
  throughput columns, which the script never computes with — it only
  selects and plots them);
* the aggregation `df.groupby(col)[val].last()` as `groupbyLast`,
  following pandas semantics: group keys are the distinct values of the
  grouping column sorted ascending (pandas `groupby` defaults to
  `sort=True`), and each group's value is taken from the group's last
  row in input order;
* each chart as a `Chart` value (its error-bar series and its title) and
  each side effect of the script as an `Event` (`mkdirs` for
  `os.makedirs(..., exist_ok=True)`, `savefig` for `plt.savefig`);
* the orchestration (`process_device`, `main`) as functions from an
  abstract input filesystem `String → Option (List Row)` (parsed CSV
  content per path, `none` when the file is missing) to the list of
  events performed plus an optional abort (the uncaught exception raised
  by `pd.read_csv` on a missing file).
-/

/-- A row of a Measurement Table: columns `io_size` (bytes), `stride_size`
(bytes, meaningful only in stride tables), `mean` and `ci95` (MB/s). -/
structure Row where
  io_size : Int
  stride_size : Int
  mean : Rat
  ci95 : Rat
deriving DecidableEq, Repr

/-- Distinct values of a list in order of first appearance (pandas keeps
the first occurrence of each key when forming groups). -/
def firstKeys (l : List Int) : List Int :=
  go l []
where
  go : List Int → List Int → List Int
    | [], _ => []
    | k :: ks, seen => if k ∈ seen then go ks seen else k :: go ks (k :: seen)

/-- Embedding of `df.groupby(key)[val].last()`: a pandas Series, i.e. a
list of (index, value) pairs.  The index is the distinct key values in
ascending order (pandas `groupby` sorts keys by default) and the value of
each key is `val` of the last row of its group. -/
def groupbyLast (t : List Row) (key : Row → Int) (val : Row → Rat) :
    List (Int × Rat) :=
  (List.insertionSort (· ≤ ·) (firstKeys (t.map key))).map
    (fun k => (k, ((t.filter (fun r => key r == k)).map val).getLastD 0))

example :
    groupbyLast [⟨4096, 0, 10, 1⟩, ⟨4096, 0, 20, 2⟩] Row.io_size Row.mean
      = [(4096, 20)] := by decide

example :
    groupbyLast [⟨8192, 0, 1, 0⟩, ⟨4096, 0, 2, 0⟩] Row.io_size Row.mean
      = [(4096, 2), (8192, 1)] := by decide

/-- One error-bar series of a chart, mirroring the arguments of a
`plt.errorbar(x, y, yerr=..., label=...)` call. -/
structure Series where
  x : List Int
  y : List Rat
  yerr : List Rat
  label : String
deriving DecidableEq, Repr

/-- A rendered chart: its error-bar series in draw order and its title. -/
structure Chart where
  series : List Series
  title : String
deriving DecidableEq, Repr

/-- A side effect of the script: `os.makedirs(path, exist_ok=True)` or
`plt.savefig(path)` of a chart. -/
inductive Event where
  | mkdirs (path : String)
  | savefig (path : String) (chart : Chart)
deriving DecidableEq, Repr

/-- Rounding of `n / d` (with `d > 0`) to the nearest integer, ties to
even: the rounding Python applies when formatting the float `n / d`
with zero decimal places (format spec `.0f`). -/
def roundHalfEven (n d : Int) : Int :=
  let q := n.fdiv d
  let r := n.fmod d
  if 2 * r < d then q
  else if 2 * r > d then q + 1
  else if q % 2 = 0 then q else q + 1

/-- The series label the stride renderer builds for an I/O size: the
f-string `IO Size=` followed by `io_size/1024` under format spec `.0f`
and `KB` — the size in KB with zero decimal places. -/
def strideLabel (io_size : Int) : String :=
  "IO Size=" ++ toString (roundHalfEven io_size 1024) ++ "KB"

example : strideLabel 4096 = "IO Size=4KB" := by decide

/-- The five representative I/O sizes the stride renderer iterates over
(`io_sizes` in `plot_stride`). -/
def io_sizes : List Int := [4096, 65536, 524288, 1048576, 10485760]

/-- Body of the `plot_stride` loop for one representative I/O size:
filter the stride table to the rows whose `io_size` equals it exactly;
when no row matches, no series is drawn (`if not data.empty`); otherwise
one error-bar series aggregated by `stride_size` per `groupbyLast`. -/
def strideSeriesFor (stride_data : List Row) (io_size : Int) : Option Series :=
  let data := stride_data.filter (fun r => r.io_size == io_size)
  if data.isEmpty then none
  else some
    { x := (groupbyLast data Row.stride_size Row.mean).map Prod.fst
      y := (groupbyLast data Row.stride_size Row.mean).map Prod.snd
      yerr := (groupbyLast data Row.stride_size Row.ci95).map Prod.snd
      label := strideLabel io_size }

/-- The series of the stride chart, one per representative I/O size with
at least one matching row, in the loop's order. -/
def strideSeries (stride_data : List Row) : List Series :=
  io_sizes.filterMap (strideSeriesFor stride_data)

/-- Embedding of `plot_stride`: renders the stride chart and saves it as
`{output_dir}/stride_{device}_{operation}.png`.  The saving happens
unconditionally, whatever the series of the chart are. -/
def plot_stride (stride_data : List Row) (operation device output_dir : String) :
    Event :=
  Event.savefig (output_dir ++ "/stride_" ++ device ++ "_" ++ operation ++ ".png")
    { series := strideSeries stride_data
      title := "Stride Size vs Throughput - " ++ device ++ " " ++ operation }

/-- Embedding of `plot_io_size`: renders the Sequential and Random
error-bar series, each aggregated by `io_size` per `groupbyLast`, and
saves the chart as `{output_dir}/io_size_{device}_{operation}.png`. -/
def plot_io_size (seq_data random_data : List Row) (operation device output_dir : String) :
    Event :=
  Event.savefig (output_dir ++ "/io_size_" ++ device ++ "_" ++ operation ++ ".png")
    { series :=
        [ { x := (groupbyLast seq_data Row.io_size Row.mean).map Prod.fst
            y := (groupbyLast seq_data Row.io_size Row.mean).map Prod.snd
            yerr := (groupbyLast seq_data Row.io_size Row.ci95).map Prod.snd
            label := "Sequential" },
          { x := (groupbyLast random_data Row.io_size Row.mean).map Prod.fst
            y := (groupbyLast random_data Row.io_size Row.mean).map Prod.snd
            yerr := (groupbyLast random_data Row.io_size Row.ci95).map Prod.snd
            label := "Random" } ]
      title := "I/O Size vs Throughput - " ++ device ++ " " ++ operation }

/-- Embedding of `load_data` / `pd.read_csv`: look the path up in the
abstract input filesystem; a missing file raises (is an `error`). -/
def load_data (fs : String → Option (List Row)) (filepath : String) :
    Except String (List Row) :=
  match fs filepath with
  | some t => .ok t
  | none => .error filepath

/-- The file names the Device Orchestrator loads from a device directory,
as path suffixes, in load order. -/
def inputSuffixes : List String :=
  ["/sequential_size_read.csv", "/sequential_size_write.csv",
   "/random_read.csv", "/random_write.csv",
   "/stride_read.csv", "/stride_write.csv"]

/-- The loading phase of `process_device` (lines 65 to 70 of the script):
all six tables are loaded, in order, before any plot call; the first
missing file aborts the whole phase. -/
def loadAll (fs : String → Option (List Row)) (device_dir : String) :
    Except String
      (List Row × List Row × List Row × List Row × List Row × List Row) := do
  let seq_read ← load_data fs (device_dir ++ "/sequential_size_read.csv")
  let seq_write ← load_data fs (device_dir ++ "/sequential_size_write.csv")
  let random_read ← load_data fs (device_dir ++ "/random_read.csv")
  let random_write ← load_data fs (device_dir ++ "/random_write.csv")
  let stride_read ← load_data fs (device_dir ++ "/stride_read.csv")
  let stride_write ← load_data fs (device_dir ++ "/stride_write.csv")
  return (seq_read, seq_write, random_read, random_write, stride_read, stride_write)

/-- Embedding of `process_device`: the list of side effects performed, and
the uncaught error (the path of the missing file) when the run aborted.
The output directory is created first; then all six tables are loaded;
then the four charts are drawn and saved.  When a load fails, the events
performed are just the `mkdirs` — no chart of the device is saved. -/
def process_device (fs : String → Option (List Row))
    (device_dir device_name output_dir : String) :
    List Event × Option String :=
  match loadAll fs device_dir with
  | .error e => ([Event.mkdirs output_dir], some e)
  | .ok (seq_read, seq_write, random_read, random_write, stride_read, stride_write) =>
      ([Event.mkdirs output_dir,
        plot_io_size seq_read random_read "read" device_name output_dir,
        plot_io_size seq_write random_write "write" device_name output_dir,
        plot_stride stride_read "read" device_name output_dir,
        plot_stride stride_write "write" device_name output_dir], none)

/-- Embedding of `main`: create `benchmark_plots`, process the HDD device,
and, only when it completed, process the SSD device.  An uncaught error in
the HDD run terminates the script before any SSD work starts. -/
def mainEntry (fs : String → Option (List Row)) : List Event × Option String :=
  let pre := [Event.mkdirs "benchmark_plots"]
  match process_device fs "hdd_benchmark_results" "HDD" "benchmark_plots" with
  | (evs, some e) => (pre ++ evs, some e)
  | (evs, none) =>
      match process_device fs "ssd_benchmark_results" "SSD" "benchmark_plots" with
      | (evs2, r) => (pre ++ evs ++ evs2, r)

/-- Paths of the `savefig` events of a trace, in order: the chart files a
run writes. -/
def savefigPaths (tr : List Event) : List String :=
  tr.filterMap fun e =>
    match e with
    | .savefig p _ => some p
    | .mkdirs _ => none

/-- The twelve input files of a full run (six per device). -/
def inputPaths : List String :=
  inputSuffixes.map (fun s => "hdd_benchmark_results" ++ s) ++
    inputSuffixes.map (fun s => "ssd_benchmark_results" ++ s)

/-- Proper ancestor directories of a slash-separated path, e.g. the
parents of `a/b/c` are `a` and `a/b`. -/
def parentDirs (path : String) : List String :=
  let parts := path.splitOn "/"
  (List.range parts.length).filterMap fun i =>
    if i = 0 then none else some (String.intercalate "/" (parts.take i))

/-- Modelled `os.makedirs(path, exist_ok)` acting on the set of existing
directories: raises `FileExistsError` (returns `none`) when the directory
exists and `exist_ok` is false; otherwise the directory and every missing
parent exist afterwards. -/
def makedirs (dirs : List String) (path : String) (exist_ok : Bool) :
    Option (List String) :=
  if path ∈ dirs ∧ exist_ok = false then none
  else some (path :: parentDirs path ++ dirs)

/-- Filesystem state built up by a trace: the directories that exist and
the chart files written so far. -/
structure FS where
  dirs : List String
  files : List String
deriving DecidableEq, Repr

/-- Interpretation of one event on the filesystem state.  The script
always passes `exist_ok=True` to `os.makedirs`. -/
def applyEvent (s : FS) : Event → Option FS
  | .mkdirs p => (makedirs s.dirs p true).map fun d => { s with dirs := d }
  | .savefig p _ => some { s with files := p :: s.files }

/-! ### Lemmas about the aggregator -/

theorem firstKeys_go_mem (l : List Int) :
    ∀ (seen : List Int) (x : Int), x ∈ firstKeys.go l seen ↔ x ∈ l ∧ x ∉ seen := by
  induction l with
  | nil => intro seen x; simp [firstKeys.go]
  | cons k ks ih =>
      intro seen x
      by_cases hk : k ∈ seen
      · rw [firstKeys.go, if_pos hk, ih]
        constructor
        · rintro ⟨hx, hxs⟩
          exact ⟨List.mem_cons_of_mem _ hx, hxs⟩
        · rintro ⟨hx, hxs⟩
          rcases List.mem_cons.mp hx with rfl | hx
          · exact absurd hk hxs
          · exact ⟨hx, hxs⟩
      · rw [firstKeys.go, if_neg hk]
        constructor
        · intro hx
          rcases List.mem_cons.mp hx with rfl | hx
          · exact ⟨List.mem_cons_self _ _, hk⟩
          · rcases (ih _ _).mp hx with ⟨h1, h2⟩
            refine ⟨List.mem_cons_of_mem _ h1, fun hc => h2 ?_⟩
            exact List.mem_cons_of_mem _ hc
        · rintro ⟨hx, hxs⟩
          rcases List.mem_cons.mp hx with rfl | hx
          · exact List.mem_cons_self _ _
          · by_cases hxk : x = k
            · subst hxk; exact List.mem_cons_self _ _
            · exact List.mem_cons_of_mem _
                ((ih _ _).mpr ⟨hx, by simp [hxk, hxs]⟩)

theorem firstKeys_mem (l : List Int) (x : Int) : x ∈ firstKeys l ↔ x ∈ l := by
  rw [firstKeys, firstKeys_go_mem]
  simp

theorem firstKeys_go_nodup (l : List Int) :
    ∀ seen : List Int, (firstKeys.go l seen).Nodup := by
  induction l with
  | nil => intro seen; simp [firstKeys.go]
  | cons k ks ih =>
      intro seen
      by_cases hk : k ∈ seen
      · rw [firstKeys.go, if_pos hk]; exact ih seen
      · rw [firstKeys.go, if_neg hk]
        refine List.nodup_cons.mpr ⟨fun hc => ?_, ih _⟩
        exact ((firstKeys_go_mem ks _ k).mp hc).2 (List.mem_cons_self _ _)

theorem firstKeys_nodup (l : List Int) : (firstKeys l).Nodup :=
  firstKeys_go_nodup l []

/-- The index of the pandas Series produced by `groupbyLast`: the distinct
values of the grouping column, sorted ascending. -/
theorem groupbyLast_keys (t : List Row) (key : Row → Int) (val : Row → Rat) :
    (groupbyLast t key val).map Prod.fst =
      List.insertionSort (· ≤ ·) (firstKeys (t.map key)) := by
  simp [groupbyLast, List.map_map, Function.comp_def]

theorem sortedKeys_nodup (l : List Int) :
    (List.insertionSort (· ≤ ·) (firstKeys l)).Nodup :=
  (List.perm_insertionSort _ _).symm.nodup (firstKeys_nodup l)

theorem sortedKeys_mem (l : List Int) (x : Int) :
    x ∈ List.insertionSort (· ≤ ·) (firstKeys l) ↔ x ∈ l := by
  rw [(List.perm_insertionSort _ _).mem_iff, firstKeys_mem]

theorem sortedKeys_sorted_lt (l : List Int) :
    (List.insertionSort (· ≤ ·) (firstKeys l)).Sorted (· < ·) := by
  have hs := List.sorted_insertionSort (· ≤ ·) (firstKeys l)
  have hn := sortedKeys_nodup l
  exact (List.Pairwise.and hs hn).imp fun h => lt_of_le_of_ne h.1 h.2

theorem lookup_map_pair (f : Int → Rat) (k : Int) :
    ∀ ks : List Int, k ∈ ks →
      (ks.map fun x => (x, f x)).lookup k = some (f k) := by
  intro ks
  induction ks with
  | nil => intro h; cases h
  | cons x xs ih =>
      intro h
      by_cases hk : k = x
      · subst hk; simp [List.lookup]
      · rcases List.mem_cons.mp h with rfl | h
        · exact absurd rfl hk
        · simpa [List.lookup, beq_false_of_ne hk] using ih h

theorem getLastD_map (val : Row → Rat) :
    ∀ (l : List Row) (h : l ≠ []), (l.map val).getLastD 0 = val (l.getLast h) := by
  intro l h
  have hm : l.map val ≠ [] := by simpa using h
  rw [List.getLastD_eq_getLast? , List.getLast?_eq_getLast _ hm, Option.getD_some]
  simp

/-- The two tables of the worked examples: duplicate grouping keys, and
keys out of ascending order. -/
def dupTable : List Row := [⟨4096, 0, 10, 1⟩, ⟨4096, 0, 20, 2⟩]

def unsortedTable : List Row := [⟨8192, 0, 1, 0⟩, ⟨4096, 0, 2, 0⟩]

/-- C1: for every Measurement Table, grouping column and value column, and
every grouping-key value with at least one matching row, the aggregated
Series maps that key to the value column of the *last* matching row in
table order — so among duplicate-key rows the last occurrence wins, not an
average and not the first occurrence. -/
theorem aggregator_last_row_wins (t : List Row) (key : Row → Int) (val : Row → Rat)
    (k : Int) (h : t.filter (fun r => key r == k) ≠ []) :
    (groupbyLast t key val).lookup k =
      some (val ((t.filter (fun r => key r == k)).getLast h)) := by
  have hk : k ∈ t.map key := by
    rcases List.exists_mem_of_ne_nil _ h with ⟨r, hr⟩
    have hr2 := List.mem_filter.mp hr
    exact List.mem_map.mpr ⟨r, hr2.1, by simpa using hr2.2⟩
  have hmem : k ∈ List.insertionSort (· ≤ ·) (firstKeys (t.map key)) :=
    (sortedKeys_mem _ _).mpr hk
  rw [groupbyLast, lookup_map_pair _ _ _ hmem]
  rw [getLastD_map _ _ h]

/-- Witness for C1 at the spec example: rows (io_size=4096, mean=10) then
(io_size=4096, mean=20) aggregate to mean 20 for key 4096. -/
theorem aggregator_last_row_wins_witness :
    (groupbyLast dupTable Row.io_size Row.mean).lookup 4096 = some 20 := by
  have h : dupTable.filter (fun r => r.io_size == 4096) ≠ [] := by decide
  have hthm := aggregator_last_row_wins dupTable Row.io_size Row.mean 4096 h
  rw [hthm]
  rfl

/-- C2 is false: on a table whose keys first appear in the order
8192, 4096, the aggregated key sequence is the sorted [4096, 8192] (pandas
groupby sorts group keys), not the first-appearance order [8192, 4096]. -/
theorem aggregator_order_counterexample :
    (groupbyLast unsortedTable Row.io_size Row.mean).map Prod.fst = [4096, 8192] ∧
    firstKeys (unsortedTable.map Row.io_size) = [8192, 4096] ∧
    (groupbyLast unsortedTable Row.io_size Row.mean).map Prod.fst ≠
      firstKeys (unsortedTable.map Row.io_size) := by
  decide

/-- C2 amended: for every input table, the sequence of group keys in the
aggregated output is the distinct values of the grouping column in
strictly ascending sorted order — not in order of first appearance. -/
theorem aggregator_keys_sorted_and_complete (t : List Row) (key : Row → Int)
    (val : Row → Rat) :
    ((groupbyLast t key val).map Prod.fst).Sorted (· < ·) ∧
    ∀ k : Int, k ∈ (groupbyLast t key val).map Prod.fst ↔ k ∈ t.map key := by
  rw [groupbyLast_keys]
  exact ⟨sortedKeys_sorted_lt _, fun k => sortedKeys_mem _ _⟩

/-- C9: for every input table, the group keys of the aggregated output are
in strictly ascending order, regardless of the row order of the input. -/
theorem aggregator_keys_strictly_ascending (t : List Row) (key : Row → Int)
    (val : Row → Rat) :
    ((groupbyLast t key val).map Prod.fst).Sorted (· < ·) := by
  rw [groupbyLast_keys]
  exact sortedKeys_sorted_lt _

/-! ### Lemmas about the stride renderer -/

/-- Modelled from the spec wording of C3: the label format the spec
describes, the I/O size converted to KB and formatted with *one* decimal
place (Python format spec `.1f`), e.g. `IO Size=4.0KB` for 4096 bytes. -/
def strideLabelOneDecimal (io_size : Int) : String :=
  let tenths := roundHalfEven (10 * io_size) 1024
  "IO Size=" ++ toString (tenths / 10) ++ "." ++ toString ((tenths % 10).natAbs) ++ "KB"

example : strideLabelOneDecimal 4096 = "IO Size=4.0KB" := by decide

/-- A stride table whose only row has one of the five representative
I/O sizes. -/
def fourKTable : List Row := [⟨4096, 4096, 1, 0⟩]

theorem any_eq_not_isEmpty_filter (t : List Row) (p : Row → Bool) :
    t.any p = !(t.filter p).isEmpty := by
  induction t with
  | nil => rfl
  | cons r t ih =>
      by_cases h : p r <;> simp [List.any_cons, List.filter_cons, h, ih]

theorem strideSeriesFor_of_present (t : List Row) (s : Int)
    (h : (t.filter (fun r => r.io_size == s)).isEmpty = false) :
    strideSeriesFor t s = some
      { x := (groupbyLast (t.filter (fun r => r.io_size == s)) Row.stride_size Row.mean).map Prod.fst
        y := (groupbyLast (t.filter (fun r => r.io_size == s)) Row.stride_size Row.mean).map Prod.snd
        yerr := (groupbyLast (t.filter (fun r => r.io_size == s)) Row.stride_size Row.ci95).map Prod.snd
        label := strideLabel s } := by
  rw [strideSeriesFor]
  simp [h]

theorem strideSeriesFor_of_absent (t : List Row) (s : Int)
    (h : (t.filter (fun r => r.io_size == s)).isEmpty = true) :
    strideSeriesFor t s = none := by
  rw [strideSeriesFor]
  simp [h]

theorem strideSeries_labels_aux (t : List Row) :
    ∀ l : List Int, (l.filterMap (strideSeriesFor t)).map Series.label =
      (l.filter (fun s => t.any (fun r => r.io_size == s))).map strideLabel := by
  intro l
  induction l with
  | nil => rfl
  | cons s l ih =>
      rw [List.filterMap_cons, List.filter_cons]
      by_cases h : (t.filter (fun r => r.io_size == s)).isEmpty
      · have hany : t.any (fun r => r.io_size == s) = false := by
          rw [any_eq_not_isEmpty_filter, h]
          rfl
        rw [strideSeriesFor_of_absent t s h, hany]
        simpa using ih
      · have hf : (t.filter (fun r => r.io_size == s)).isEmpty = false := by
          simpa using h
        have hany : t.any (fun r => r.io_size == s) = true := by
          rw [any_eq_not_isEmpty_filter, hf]
          rfl
        rw [strideSeriesFor_of_present t s hf, hany]
        simpa using ih

/-- C3 is false as stated: for a stride table containing I/O size 4096,
the series the renderer draws is labeled "IO Size=4KB" (zero decimal
places, format spec `.0f`), while formatting 4096 bytes in KB with one
decimal place gives "IO Size=4.0KB". -/
theorem stride_label_one_decimal_counterexample :
    (strideSeries fourKTable).map Series.label = ["IO Size=4KB"] ∧
    strideLabelOneDecimal 4096 = "IO Size=4.0KB" ∧
    ("IO Size=4KB" : String) ≠ "IO Size=4.0KB" := by
  decide

/-- C3 amended: in the Stride Chart Renderer, every one of the five fixed
I/O sizes having at least one matching row contributes a series labeled by
that I/O size converted to KB and formatted with zero decimal places, as
an integer (e.g. "IO Size=4KB" for 4096 bytes). -/
theorem stride_label_integer_kb (t : List Row) (s : Int) (hs : s ∈ io_sizes)
    (hr : ∃ r ∈ t, r.io_size = s) :
    "IO Size=" ++ toString (s / 1024) ++ "KB" ∈ (strideSeries t).map Series.label := by
  rcases hr with ⟨r, hrt, hrs⟩
  have hne : (t.filter (fun x => x.io_size == s)).isEmpty = false := by
    rw [List.isEmpty_eq_false]
    intro hnil
    have : r ∈ t.filter (fun x => x.io_size == s) :=
      List.mem_filter.mpr ⟨hrt, by simp [hrs]⟩
    rw [hnil] at this
    cases this
  have hlabel : strideLabel s = "IO Size=" ++ toString (s / 1024) ++ "KB" := by
    have hs5 : s = 4096 ∨ s = 65536 ∨ s = 524288 ∨ s = 1048576 ∨ s = 10485760 := by
      simpa [io_sizes] using hs
    rcases hs5 with rfl | rfl | rfl | rfl | rfl <;> decide
  rw [← hlabel]
  refine List.mem_map.mpr ⟨_, List.mem_filterMap.mpr ⟨s, hs, strideSeriesFor_of_present t s hne⟩, rfl⟩

/-- Witness for C3 amended at a table containing I/O size 4096. -/
theorem stride_label_integer_kb_witness :
    ("IO Size=" ++ toString ((4096 : Int) / 1024) ++ "KB")
      ∈ (strideSeries fourKTable).map Series.label := by
  exact stride_label_integer_kb fourKTable 4096 (by decide)
    ⟨⟨4096, 4096, 1, 0⟩, by decide, rfl⟩

/-- C4: the stride renderer draws one series per representative I/O size
(4096, 65536, 524288, 1048576, 10485760 bytes) present in the table —
selected by exact equality on io_size — in that fixed order; absent sizes
are skipped silently, so the number of series equals the number of the
five sizes present. -/
theorem stride_series_count (t : List Row) :
    (strideSeries t).map Series.label =
      (io_sizes.filter (fun s => t.any (fun r => r.io_size == s))).map strideLabel ∧
    (strideSeries t).length =
      (io_sizes.filter (fun s => t.any (fun r => r.io_size == s))).length := by
  have h := strideSeries_labels_aux t io_sizes
  refine ⟨h, ?_⟩
  have := congrArg List.length h
  simpa [strideSeries] using this

/-- C10: the stride renderer saves its PNG for every input table; in
particular on a table in which none of the five representative I/O sizes
has a matching row, a chart with an empty series list is still saved to
the same path — no error. -/
theorem plot_stride_always_saves (t : List Row) (operation device output_dir : String) :
    (∃ c : Chart, plot_stride t operation device output_dir =
      Event.savefig
        (output_dir ++ "/stride_" ++ device ++ "_" ++ operation ++ ".png") c) ∧
    ((∀ r ∈ t, r.io_size ∉ io_sizes) →
      plot_stride t operation device output_dir =
        Event.savefig
          (output_dir ++ "/stride_" ++ device ++ "_" ++ operation ++ ".png")
          { series := [],
            title := "Stride Size vs Throughput - " ++ device ++ " " ++ operation }) := by
  constructor
  · exact ⟨_, rfl⟩
  · intro h
    have hempty : strideSeries t = [] := by
      rw [strideSeries, List.filterMap_eq_nil_iff]
      intro s hs
      apply strideSeriesFor_of_absent
      rw [List.isEmpty_eq_true, List.filter_eq_nil_iff]
      intro r hr hrs
      exact h r hr (by simpa using (beq_iff_eq.mp hrs) ▸ hs)
    rw [plot_stride, hempty]

/-- Witness for C10 at a one-row table whose io_size is none of the five
representative sizes: the zero-series chart is still saved. -/
theorem plot_stride_always_saves_witness :
    plot_stride [⟨5, 1, 1, 0⟩] "read" "HDD" "out" =
      Event.savefig "out/stride_HDD_read.png"
        { series := [], title := "Stride Size vs Throughput - HDD read" } := by
  have h := (plot_stride_always_saves [⟨5, 1, 1, 0⟩] "read" "HDD" "out").2 (by decide)
  rw [h]
  rfl

/-! ### Lemmas about the orchestration -/

theorem loadAll_error_of_missing (fs : String → Option (List Row)) (d : String)
    (h : ∃ suf ∈ inputSuffixes, fs (d ++ suf) = none) :
    ∃ e, loadAll fs d = .error e := by
  by_cases h1 : fs (d ++ "/sequential_size_read.csv") = none
  · exact ⟨d ++ "/sequential_size_read.csv", by simp [loadAll, load_data, h1, Bind.bind, Except.bind]⟩
  rcases Option.ne_none_iff_exists.mp h1 with ⟨t1, ht1⟩
  by_cases h2 : fs (d ++ "/sequential_size_write.csv") = none
  · exact ⟨d ++ "/sequential_size_write.csv", by simp [loadAll, load_data, ← ht1, h2, Bind.bind, Except.bind]⟩
  rcases Option.ne_none_iff_exists.mp h2 with ⟨t2, ht2⟩
  by_cases h3 : fs (d ++ "/random_read.csv") = none
  · exact ⟨d ++ "/random_read.csv", by simp [loadAll, load_data, ← ht1, ← ht2, h3, Bind.bind, Except.bind]⟩
  rcases Option.ne_none_iff_exists.mp h3 with ⟨t3, ht3⟩
  by_cases h4 : fs (d ++ "/random_write.csv") = none
  · exact ⟨d ++ "/random_write.csv", by simp [loadAll, load_data, ← ht1, ← ht2, ← ht3, h4, Bind.bind, Except.bind]⟩
  rcases Option.ne_none_iff_exists.mp h4 with ⟨t4, ht4⟩
  by_cases h5 : fs (d ++ "/stride_read.csv") = none
  · exact ⟨d ++ "/stride_read.csv", by simp [loadAll, load_data, ← ht1, ← ht2, ← ht3, ← ht4, h5,
      Bind.bind, Except.bind]⟩
  rcases Option.ne_none_iff_exists.mp h5 with ⟨t5, ht5⟩
  by_cases h6 : fs (d ++ "/stride_write.csv") = none
  · exact ⟨d ++ "/stride_write.csv", by simp [loadAll, load_data, ← ht1, ← ht2, ← ht3, ← ht4, ← ht5, h6,
      Bind.bind, Except.bind, Functor.map, Except.map]⟩
  exfalso
  rcases h with ⟨suf, hsuf, hnone⟩
  simp only [inputSuffixes, List.mem_cons, List.not_mem_nil, or_false] at hsuf
  rcases hsuf with rfl | rfl | rfl | rfl | rfl | rfl
  · exact h1 hnone
  · exact h2 hnone
  · exact h3 hnone
  · exact h4 hnone
  · exact h5 hnone
  · exact h6 hnone

/-- The shape of a failed device run: the only event performed is the
creation of the output directory. -/
theorem process_device_failed_shape (fs : String → Option (List Row))
    (device_dir device_name output_dir : String)
    (h : (process_device fs device_dir device_name output_dir).2.isSome = true) :
    ∃ e, process_device fs device_dir device_name output_dir =
      ([Event.mkdirs output_dir], some e) := by
  cases hl : loadAll fs device_dir with
  | error e => exact ⟨e, by simp [process_device, hl]⟩
  | ok x =>
      obtain ⟨a, b, c, d2, e2, f⟩ := x
      rw [process_device, hl] at h
      simp at h

/-- C6: a device directory missing any one of the six expected input files
makes the Device Orchestrator fail while loading — all six loads precede
the first plot call — so the run for that device saves none of its four
chart files. -/
theorem orchestrator_missing_file_no_charts (fs : String → Option (List Row))
    (device_dir device_name output_dir : String)
    (h : ∃ suf ∈ inputSuffixes, fs (device_dir ++ suf) = none) :
    (process_device fs device_dir device_name output_dir).2.isSome = true ∧
    savefigPaths (process_device fs device_dir device_name output_dir).1 = [] := by
  rcases loadAll_error_of_missing fs device_dir h with ⟨e, he⟩
  rw [process_device, he]
  exact ⟨rfl, rfl⟩

/-- Witness for C6: an empty filesystem makes the HDD device run fail with
no chart saved. -/
theorem orchestrator_missing_file_no_charts_witness :
    (process_device (fun _ => none) "hdd_benchmark_results" "HDD"
        "benchmark_plots").2.isSome = true ∧
    savefigPaths (process_device (fun _ => none) "hdd_benchmark_results" "HDD"
        "benchmark_plots").1 = [] := by
  exact orchestrator_missing_file_no_charts (fun _ => none) "hdd_benchmark_results"
    "HDD" "benchmark_plots"
    ⟨"/sequential_size_read.csv", by simp [inputSuffixes], rfl⟩

/-- C7: the Device Orchestrator creates the output directory (with any
missing parents, and without error when it already exists — the modelled
`os.makedirs` with `exist_ok=True` is total) as its first event, before
any chart is saved. -/
theorem orchestrator_mkdirs_before_charts (fs : String → Option (List Row))
    (device_dir device_name output_dir : String) (s : FS) :
    (process_device fs device_dir device_name output_dir).1.head? =
        some (Event.mkdirs output_dir) ∧
    (∀ i p c, (process_device fs device_dir device_name output_dir).1[i]? =
        some (Event.savefig p c) → 0 < i) ∧
    (∃ s2 : FS, applyEvent s (Event.mkdirs output_dir) = some s2 ∧
      output_dir ∈ s2.dirs ∧ ∀ q ∈ parentDirs output_dir, q ∈ s2.dirs) := by
  refine ⟨?_, ?_, ?_⟩
  · cases hl : loadAll fs device_dir with
    | error e => simp [process_device, hl]
    | ok x =>
        obtain ⟨a, b, c, d2, e2, f⟩ := x
        simp [process_device, hl]
  · intro i p c hg
    cases i with
    | zero =>
        exfalso
        cases hl : loadAll fs device_dir with
        | error e => rw [process_device, hl] at hg; simp at hg
        | ok x =>
            obtain ⟨a, b, c2, d2, e2, f⟩ := x
            rw [process_device, hl] at hg
            simp at hg
    | succ n => exact Nat.succ_pos n
  · refine ⟨FS.mk (output_dir :: (parentDirs output_dir ++ s.dirs)) s.files,
      ?_, ?_, ?_⟩
    · simp [applyEvent, makedirs]
    · exact List.mem_cons_self _ _
    · intro q hq
      exact List.mem_cons_of_mem _ (List.mem_append_left _ hq)

/-- C8: the entry point processes the HDD device first; when the HDD run
fails, the run ends with the HDD trace and saves no chart at all — in
particular no SSD chart is ever produced. -/
theorem main_hdd_failure_blocks_ssd (fs : String → Option (List Row))
    (h : (process_device fs "hdd_benchmark_results" "HDD"
      "benchmark_plots").2.isSome = true) :
    mainEntry fs =
      (Event.mkdirs "benchmark_plots" ::
        (process_device fs "hdd_benchmark_results" "HDD" "benchmark_plots").1,
       (process_device fs "hdd_benchmark_results" "HDD" "benchmark_plots").2) ∧
    savefigPaths (mainEntry fs).1 = [] := by
  rcases process_device_failed_shape fs "hdd_benchmark_results" "HDD"
    "benchmark_plots" h with ⟨e, hp⟩
  rw [mainEntry, hp]
  exact ⟨rfl, rfl⟩

/-- Witness for C8: with no input file present, the HDD run fails and the
whole run saves nothing. -/
theorem main_hdd_failure_blocks_ssd_witness :
    mainEntry (fun _ => none) =
      (Event.mkdirs "benchmark_plots" ::
        (process_device (fun _ => none) "hdd_benchmark_results" "HDD"
          "benchmark_plots").1,
       (process_device (fun _ => none) "hdd_benchmark_results" "HDD"
          "benchmark_plots").2) ∧
    savefigPaths (mainEntry (fun _ => none)).1 = [] := by
  exact main_hdd_failure_blocks_ssd (fun _ => none) (by decide)

/-- The shape of a successful device run: the six loaded tables feed the
two I/O-size charts and the two stride charts, in that order, after the
output directory is created. -/
theorem process_device_ok_shape (fs : String → Option (List Row))
    (d n o : String) (t1 t2 t3 t4 t5 t6 : List Row)
    (h1 : fs (d ++ "/sequential_size_read.csv") = some t1)
    (h2 : fs (d ++ "/sequential_size_write.csv") = some t2)
    (h3 : fs (d ++ "/random_read.csv") = some t3)
    (h4 : fs (d ++ "/random_write.csv") = some t4)
    (h5 : fs (d ++ "/stride_read.csv") = some t5)
    (h6 : fs (d ++ "/stride_write.csv") = some t6) :
    process_device fs d n o =
      ([Event.mkdirs o,
        plot_io_size t1 t3 "read" n o,
        plot_io_size t2 t4 "write" n o,
        plot_stride t5 "read" n o,
        plot_stride t6 "write" n o], none) := by
  have hl : loadAll fs d = .ok (t1, t2, t3, t4, t5, t6) := by
    simp [loadAll, load_data, h1, h2, h3, h4, h5, h6, Bind.bind, Except.bind,
      Functor.map, Except.map, Pure.pure, Except.pure]
  rw [process_device, hl]

/-- C5: a complete run over the two devices with all six input CSVs
present for each saves exactly eight PNG files into benchmark_plots, in
order: io_size and stride charts for read and write, first for HDD, then
for SSD — four files per device — and the run ends without error. -/
theorem full_run_writes_eight_pngs (fs : String → Option (List Row))
    (h : ∀ p ∈ inputPaths, (fs p).isSome = true) :
    savefigPaths (mainEntry fs).1 =
      ["benchmark_plots/io_size_HDD_read.png",
       "benchmark_plots/io_size_HDD_write.png",
       "benchmark_plots/stride_HDD_read.png",
       "benchmark_plots/stride_HDD_write.png",
       "benchmark_plots/io_size_SSD_read.png",
       "benchmark_plots/io_size_SSD_write.png",
       "benchmark_plots/stride_SSD_read.png",
       "benchmark_plots/stride_SSD_write.png"] ∧
    (mainEntry fs).2 = none := by
  obtain ⟨a1, ha1⟩ := Option.isSome_iff_exists.mp
    (h "hdd_benchmark_results/sequential_size_read.csv" (by decide))
  obtain ⟨a2, ha2⟩ := Option.isSome_iff_exists.mp
    (h "hdd_benchmark_results/sequential_size_write.csv" (by decide))
  obtain ⟨a3, ha3⟩ := Option.isSome_iff_exists.mp
    (h "hdd_benchmark_results/random_read.csv" (by decide))
  obtain ⟨a4, ha4⟩ := Option.isSome_iff_exists.mp
    (h "hdd_benchmark_results/random_write.csv" (by decide))
  obtain ⟨a5, ha5⟩ := Option.isSome_iff_exists.mp
    (h "hdd_benchmark_results/stride_read.csv" (by decide))
  obtain ⟨a6, ha6⟩ := Option.isSome_iff_exists.mp
    (h "hdd_benchmark_results/stride_write.csv" (by decide))
  obtain ⟨b1, hb1⟩ := Option.isSome_iff_exists.mp
    (h "ssd_benchmark_results/sequential_size_read.csv" (by decide))
  obtain ⟨b2, hb2⟩ := Option.isSome_iff_exists.mp
    (h "ssd_benchmark_results/sequential_size_write.csv" (by decide))
  obtain ⟨b3, hb3⟩ := Option.isSome_iff_exists.mp
    (h "ssd_benchmark_results/random_read.csv" (by decide))
  obtain ⟨b4, hb4⟩ := Option.isSome_iff_exists.mp
    (h "ssd_benchmark_results/random_write.csv" (by decide))
  obtain ⟨b5, hb5⟩ := Option.isSome_iff_exists.mp
    (h "ssd_benchmark_results/stride_read.csv" (by decide))
  obtain ⟨b6, hb6⟩ := Option.isSome_iff_exists.mp
    (h "ssd_benchmark_results/stride_write.csv" (by decide))
  have hh := process_device_ok_shape fs "hdd_benchmark_results" "HDD"
    "benchmark_plots" a1 a2 a3 a4 a5 a6 ha1 ha2 ha3 ha4 ha5 ha6
  have hs := process_device_ok_shape fs "ssd_benchmark_results" "SSD"
    "benchmark_plots" b1 b2 b3 b4 b5 b6 hb1 hb2 hb3 hb4 hb5 hb6
  rw [mainEntry, hh, hs]
  constructor
  · simp [savefigPaths, plot_io_size, plot_stride]
  · rfl

/-- Witness for C5: a filesystem holding a table at each of the twelve
input paths makes the full run write the eight chart files. -/
theorem full_run_writes_eight_pngs_witness :
    savefigPaths
        (mainEntry (fun p => if p ∈ inputPaths then some [] else none)).1 =
      ["benchmark_plots/io_size_HDD_read.png",
       "benchmark_plots/io_size_HDD_write.png",
       "benchmark_plots/stride_HDD_read.png",
       "benchmark_plots/stride_HDD_write.png",
       "benchmark_plots/io_size_SSD_read.png",
       "benchmark_plots/io_size_SSD_write.png",
       "benchmark_plots/stride_SSD_read.png",
       "benchmark_plots/stride_SSD_write.png"] ∧
    (mainEntry (fun p => if p ∈ inputPaths then some [] else none)).2 = none := by
  exact full_run_writes_eight_pngs _ (by decide)

/-- Witness for C7 at a filesystem with every file present: the first
event of the device run is the creation of the output directory, and the
event at index 1 — a chart save — has positive index. -/
theorem orchestrator_mkdirs_before_charts_witness :
    (process_device (fun _ => some []) "d" "HDD" "out").1.head? =
        some (Event.mkdirs "out") ∧ (0 : Nat) < 1 := by
  refine ⟨(orchestrator_mkdirs_before_charts (fun _ => some []) "d" "HDD" "out"
    (FS.mk [] [])).1, ?_⟩
  exact (orchestrator_mkdirs_before_charts (fun _ => some []) "d" "HDD" "out"
    (FS.mk [] [])).2.1 1 _ _ rfl
